import Mathlib

/-!
Verification development for the Graphoni proposal-to-mutation pipeline.

The repository stores proposals and an audit ledger in PostgreSQL
(web/lib/db/schema.ts) and guards every API route with a role gate
(web/lib/auth-guard.ts, exported as requireRole / resolveApiKey).
The definitions below embed that code shallowly: database tables become
lists of structures, the graph store becomes a function from entity id to
an optional property map, and time becomes a natural number.  Components
whose implementation is not part of the source tree (the proposal store
operations, the mutation executor, and the squash compactor) are modelled
from the specification, as marked on each definition.
-/

namespace Graphoni

/-- Proposal status, from proposalStatusEnum in web/lib/db/schema.ts. -/
inductive Status where
  | pending
  | approved
  | rejected
  | applied
  | failed
deriving DecidableEq

/-- Proposal type, from proposalTypeEnum in web/lib/db/schema.ts. -/
inductive PType where
  | add_node
  | edit_node
  | delete_node
  | add_edge
  | edit_edge
  | delete_edge
deriving DecidableEq

/-- Whether a proposal type creates a fresh entity (the add-* types). -/
def PType.isAdd : PType → Bool
  | .add_node => true
  | .add_edge => true
  | _ => false

/-- Audit action, from auditActionEnum in web/lib/db/schema.ts. -/
inductive AuditAction where
  | proposal_created
  | proposal_approved
  | proposal_rejected
  | proposal_applied
  | proposal_failed
  | direct_add_node
  | direct_edit_node
  | direct_delete_node
  | direct_add_edge
  | direct_edit_edge
  | direct_delete_edge
  | squash
deriving DecidableEq

/-- A reviewer decision on a pending proposal. -/
inductive Decision where
  | approve
  | reject
deriving DecidableEq

/-- Scalar property value: string, number, boolean or null (spec section 3,
GraphEntity snapshot; numbers are modelled as integers). -/
inductive PropValue where
  | str (s : String)
  | num (n : Int)
  | boolean (b : Bool)
  | null
deriving DecidableEq

/-- A property map: ordered association list from key to scalar value. -/
def Props := List (String × PropValue)

instance : DecidableEq Props := inferInstanceAs (DecidableEq (List (String × PropValue)))

/-- Modelled from the spec: the moderation state machine of section 4.3
(the proposal store code is not in the source tree; statuses come from
proposalStatusEnum in web/lib/db/schema.ts).  statusStep a b is true when
the lifecycle may move from status a to status b in one step. -/
def statusStep : Status → Status → Bool
  | .pending, .approved => true
  | .pending, .rejected => true
  | .approved, .applied => true
  | .approved, .failed => true
  | _, _ => false

/-- A list of statuses is a path when every consecutive pair is a legal
step of the state machine. -/
def isPath : List Status → Bool
  | a :: b :: rest => statusStep a b && isPath (b :: rest)
  | _ => true

/-- The final status of a lifecycle that starts at a and then follows the
given list of statuses. -/
def lastStatus : Status → List Status → Status
  | a, [] => a
  | _, b :: r => lastStatus b r

/-- Proposal row, from the proposals table in web/lib/db/schema.ts
(squash-linkage and timestamp columns that no claim touches are omitted;
ids are modelled as naturals). -/
structure Proposal where
  id : Nat
  type : PType
  status : Status
  targetNodeId : Option String := none
  targetEdgeId : Option String := none
  dataBefore : Option Props := none
  dataAfter : Option Props := none
  reason : Option String := none
  authorId : Option Nat := none
  reviewerId : Option Nat := none
  reviewComment : Option String := none
  errorMessage : Option String := none
deriving DecidableEq

/-- Audit ledger row, from the auditLog table in web/lib/db/schema.ts. -/
structure AuditEntry where
  id : Nat
  action : AuditAction
  proposalId : Option Nat := none
  userId : Option Nat := none
  targetNodeId : Option String := none
  targetEdgeId : Option String := none
  dataBefore : Option Props := none
  dataAfter : Option Props := none
  cypherExecuted : Option String := none
  squashSummary : Option String := none
  squashedCount : Option Nat := none
  squashedIntoId : Option Nat := none
deriving DecidableEq

/-- Typed core errors, from the error taxonomy of spec section 7. -/
inductive CoreError where
  | NotFound
  | InvalidState
  | Forbidden
  | MutationExecutionError (msg : String)
  | AlreadySquashed
deriving DecidableEq

/-- Serialize one scalar value into mutation command text. -/
def serializeValue : PropValue → String
  | .str s => "\x22" ++ s ++ "\x22"
  | .num n => toString n
  | .boolean b => if b then ("true") else ("false")
  | .null => "null"

/-- Key order used when serializing property maps: sort by property key. -/
def keyLE (a b : String × PropValue) : Prop := a.1 ≤ b.1

/-- Strict key order: the key of a comes strictly before the key of b. -/
def keyLT (a b : String × PropValue) : Prop := a.1 < b.1

instance : DecidableRel keyLE := fun a b => inferInstanceAs (Decidable (a.1 ≤ b.1))

instance : IsTotal (String × PropValue) keyLE := ⟨fun a b => le_total a.1 b.1⟩

instance : IsTrans (String × PropValue) keyLE := ⟨fun _ _ _ h1 h2 => le_trans h1 h2⟩

instance : IsAntisymm (String × PropValue) keyLT :=
  ⟨fun a _ h1 h2 => absurd (lt_trans h1 h2) (lt_irrefl a.1)⟩

/-- Modelled from the spec: command text generation serializes property
keys in sorted order (spec section 4.2; the Cypher builder is not in the
source tree). -/
def sortProps (ps : Props) : Props := List.insertionSort keyLE ps

/-- Serialize a property map: key-sorted, comma-separated key/value pairs. -/
def serializeProps (ps : Props) : String :=
  String.intercalate (", ") ((sortProps ps).map (fun kv => kv.1 ++ (": ") ++ serializeValue kv.2))

/-- Modelled from the spec: the deterministic mutation command for one
proposal type, target and property map (spec section 4.2 table; the
executor code is not in the source tree).  For the edit types the property
map passed in is the diff of dataAfter against dataBefore. -/
def buildCommand : PType → String → Props → String
  | .add_node, target, ps => ("CREATE NODE ") ++ target ++ (" SET ") ++ serializeProps ps
  | .edit_node, target, ps => ("MATCH NODE ") ++ target ++ (" SET ") ++ serializeProps ps
  | .delete_node, target, _ => ("MATCH NODE ") ++ target ++ (" DETACH DELETE")
  | .add_edge, target, ps => ("CREATE EDGE ") ++ target ++ (" SET ") ++ serializeProps ps
  | .edit_edge, target, ps => ("MATCH EDGE ") ++ target ++ (" SET ") ++ serializeProps ps
  | .delete_edge, target, _ => ("MATCH EDGE ") ++ target ++ (" DELETE")

/-- Modelled from the spec: the update set of an edit proposal — exactly
the keys present in dataAfter whose value differs from dataBefore (spec
section 4.2: update only keys present in dataAfter that differ from
dataBefore). -/
def editDiff (before after : Props) : List (String × PropValue) :=
  after.filter (fun kv => decide (List.lookup kv.1 before ≠ some kv.2))

/-- Modelled from the spec: applying a list of property assignments to the
target entity in the graph store; keys not assigned keep their current
value. -/
def applyEdit (entity : String → Option PropValue) (sets : List (String × PropValue)) :
    String → Option PropValue :=
  fun k =>
    match sets.find? (fun kv => kv.1 == k) with
    | some kv => some kv.2
    | none => entity k

/-- Modelled from the spec: reviewProposal of section 4.1.  Fails with
NotFound when the id is unknown, with InvalidState when the current status
is not pending; otherwise performs the guarded conditional update from
pending to approved or rejected, stamping reviewer and comment.  The
returned list is the state of the proposal table after the atomic update,
so a concurrent second review runs against it. -/
def reviewProposal (db : List Proposal) (pid reviewerId : Nat) (decision : Decision)
    (comment : String) : Except CoreError (List Proposal) :=
  match db.find? (fun p => p.id == pid) with
  | none => .error .NotFound
  | some p =>
    if p.status = .pending then
      .ok (db.map (fun q =>
        if q.id == pid then
          { q with
            status := match decision with
              | .approve => .approved
              | .reject => .rejected,
            reviewerId := some reviewerId,
            reviewComment := some comment }
        else q))
    else .error .InvalidState

/-- Joint state of the proposal table, the audit ledger and the graph
store (spec section 2: the two independently consistent stores). -/
structure CoreState where
  proposals : List Proposal
  audit : List AuditEntry
  graph : String → Option Props

/-- Outcome of the remote graph-store call made by the executor. -/
inductive RemoteOutcome where
  | success
  | failure (msg : String)

/-- The target entity id a proposal addresses (node id or edge id). -/
def Proposal.targetId (p : Proposal) : String :=
  (p.targetNodeId.orElse (fun _ => p.targetEdgeId)).getD ("")

/-- The command text the executor generates for a proposal. -/
def Proposal.command (p : Proposal) : String :=
  match p.type with
  | .edit_node => buildCommand .edit_node p.targetId (editDiff (p.dataBefore.getD []) (p.dataAfter.getD []))
  | .edit_edge => buildCommand .edit_edge p.targetId (editDiff (p.dataBefore.getD []) (p.dataAfter.getD []))
  | t => buildCommand t p.targetId (p.dataAfter.getD [])

/-- The audit action recorded for an executor outcome. -/
def outcomeAction : RemoteOutcome → AuditAction
  | .success => .proposal_applied
  | .failure _ => .proposal_failed

/-- Modelled from the spec: the effect of a successful mutation on the
graph store, per the command semantics table of spec section 4.2. -/
def applyMutation (g : String → Option Props) (p : Proposal) : String → Option Props :=
  match p.type with
  | .add_node => fun k => if k = p.targetId then some (p.dataAfter.getD []) else g k
  | .add_edge => fun k => if k = p.targetId then some (p.dataAfter.getD []) else g k
  | .delete_node => fun k => if k = p.targetId then none else g k
  | .delete_edge => fun k => if k = p.targetId then none else g k
  | _ => fun k =>
      if k = p.targetId then
        (g k).map (fun cur =>
          (editDiff (p.dataBefore.getD []) (p.dataAfter.getD [])).foldl
            (fun acc kv => acc.filter (fun c => decide (c.1 ≠ kv.1)) ++ [kv]) cur)
      else g k

/-- Modelled from the spec: the Graph Mutation Executor of section 4.2
(the executor code is not in the source tree).  Invoked for an approved
proposal with the outcome of the remote graph-store call: on success it
sets status applied and writes one proposal_applied audit entry with the
exact command text; on failure it sets status failed, stores the error
message, leaves the graph untouched and still writes one proposal_failed
audit entry. -/
def executeApproved (st : CoreState) (pid : Nat) (actor : Option Nat)
    (outcome : RemoteOutcome) (newAuditId : Nat) : CoreState :=
  match st.proposals.find? (fun p => p.id == pid) with
  | none => st
  | some p =>
    let entry : AuditEntry :=
      { id := newAuditId,
        action := outcomeAction outcome,
        proposalId := some pid,
        userId := actor,
        targetNodeId := p.targetNodeId,
        targetEdgeId := p.targetEdgeId,
        dataBefore := p.dataBefore,
        dataAfter := p.dataAfter,
        cypherExecuted := some p.command }
    match outcome with
    | .success =>
      { proposals := st.proposals.map (fun q =>
          if q.id == pid then { q with status := .applied } else q),
        audit := st.audit ++ [entry],
        graph := applyMutation st.graph p }
    | .failure msg =>
      { proposals := st.proposals.map (fun q =>
          if q.id == pid then { q with status := .failed, errorMessage := some msg } else q),
        audit := st.audit ++ [entry],
        graph := st.graph }

/-- Modelled from the spec: the Squash Compactor of section 4.5 (the
squash code is not in the source tree).  The contiguous range is the n
ledger entries starting at position lo.  Fails with AlreadySquashed when
any entry in the range already carries a squashedIntoId; otherwise marks
every entry in the range with the new summary id and appends one squash
summary entry holding the count and the generated summary text. -/
def squashRange (ledger : List AuditEntry) (lo n : Nat) (newId : Nat)
    (summaryText : String) : Except CoreError (List AuditEntry) :=
  let range := (ledger.drop lo).take n
  if range.any (fun e => e.squashedIntoId.isSome) then .error .AlreadySquashed
  else
    let summary : AuditEntry :=
      { id := newId,
        action := .squash,
        squashSummary := some summaryText,
        squashedCount := some range.length }
    .ok (ledger.take lo
         ++ range.map (fun e => { e with squashedIntoId := some newId })
         ++ ledger.drop (lo + n)
         ++ [summary])

/-- Modelled from the spec: createProposal of section 4.1 (the proposal
store code is not in the source tree).  Captures the target's current
graph-store properties as dataBefore — null for the add-* types — inserts
one row with status pending, and returns the new proposal's id. -/
def createProposal (graph : String → Option Props) (db : List Proposal) (type : PType)
    (targetId : String) (dataAfter : Props) (reason : String) (authorId : Nat)
    (newId : Nat) : List Proposal × Nat :=
  let before : Option Props := if type.isAdd then none else graph targetId
  let row : Proposal :=
    { id := newId,
      type := type,
      status := .pending,
      targetNodeId := if type = .add_node ∨ type = .edit_node ∨ type = .delete_node
                      then some targetId else none,
      targetEdgeId := if type = .add_edge ∨ type = .edit_edge ∨ type = .delete_edge
                      then some targetId else none,
      dataBefore := before,
      dataAfter := some dataAfter,
      reason := some reason,
      authorId := some authorId }
  (db ++ [row], newId)

/-- User role.  The users table (userRoleEnum in web/lib/db/schema.ts)
stores user, mod and admin; guest is the unauthenticated level of the
Role type in web/lib/auth-guard.ts. -/
inductive Role where
  | guest
  | user
  | mod
  | admin
deriving DecidableEq

/-- ROLE_LEVEL from web/lib/auth-guard.ts: guest 0, user 1, mod 2, admin 3. -/
def ROLE_LEVEL : Role → Nat
  | .guest => 0
  | .user => 1
  | .mod => 2
  | .admin => 3

/-- A NextAuth session user as seen by requireRole; the role is optional
because session.user.role may be absent (the code defaults it to user). -/
structure SessionUser where
  id : String
  name : Option String := none
  email : Option String := none
  image : Option String := none
  role : Option Role := none
deriving DecidableEq

/-- The user value returned by resolveApiKey / requireRole. -/
structure ResolvedUser where
  id : String
  name : Option String := none
  email : Option String := none
  image : Option String := none
  role : Role
deriving DecidableEq

/-- Row of the apiKeys table in web/lib/db/schema.ts.  The key column
stores the SHA-256 hash; prefixText models the prefix column (first
characters of the raw key kept for display). -/
structure ApiKeyRow where
  id : String
  key : String
  prefixText : String
  name : String
  userId : String
  createdAt : Nat := 0
  lastUsedAt : Option Nat := none
  expiresAt : Option Nat := none
  revoked : Bool := false
deriving DecidableEq

/-- Row of the users table in web/lib/db/schema.ts. -/
structure UserRow where
  id : String
  name : Option String := none
  email : Option String := none
  image : Option String := none
  role : Role := .user
deriving DecidableEq

/-- The inner join of apiKeys with users on userId performed by
resolveApiKey in web/lib/auth-guard.ts (users.id is the primary key, so
each key row joins with at most one user row). -/
def apiKeyJoin (keys : List ApiKeyRow) (userTable : List UserRow) :
    List (ApiKeyRow × UserRow) :=
  keys.filterMap (fun k =>
    (userTable.find? (fun u => u.id == k.userId)).map (fun u => (k, u)))

/-- resolveApiKey from web/lib/auth-guard.ts.  The SHA-256 digest is an
abstract parameter; the Authorization header must start with Bearer gk_,
the raw key is the header minus the 7-character Bearer marker, and the
joined row found by hash only authenticates when it is not revoked and
not past its optional expiry. -/
def resolveApiKey (sha256 : String → String) (keys : List ApiKeyRow)
    (userTable : List UserRow) (authHeader : Option String) (now : Nat) :
    Option ResolvedUser :=
  match authHeader with
  | none => none
  | some h =>
    if h.startsWith ("Bearer gk_") then
      let rawKey := h.drop 7
      let hash := sha256 rawKey
      match (apiKeyJoin keys userTable).find? (fun r => r.1.key == hash) with
      | none => none
      | some ku =>
        if ku.1.revoked then none
        else
          match ku.1.expiresAt with
          | some e =>
            if e < now then none
            else some { id := ku.2.id, name := ku.2.name, email := ku.2.email,
                        image := ku.2.image, role := ku.2.role }
          | none => some { id := ku.2.id, name := ku.2.name, email := ku.2.email,
                           image := ku.2.image, role := ku.2.role }
    else none

/-- The error half of requireRole's result: 403 insufficient permissions
or 401 authentication required. -/
inductive GuardError where
  | insufficientPermissions (required current : Role)
  | authenticationRequired
deriving DecidableEq

/-- The HTTP status code requireRole attaches to each error. -/
def GuardError.statusCode : GuardError → Nat
  | .insufficientPermissions _ _ => 403
  | .authenticationRequired => 401

/-- The result of requireRole: whether a session was present, the
resolved user, and the optional error response. -/
structure GuardResult where
  sessionPresent : Bool
  user : Option ResolvedUser
  error : Option GuardError
deriving DecidableEq

/-- requireRole from web/lib/auth-guard.ts.  Tries the NextAuth session
first (defaulting a missing session role to user), falls back to an API
key, and re-validates the resolved role level against the minimum: a
level below the minimum yields the 403 error unless the minimum is guest,
and no credential at all yields the 401 error when the minimum is above
guest. -/
def requireRole (sha256 : String → String) (keys : List ApiKeyRow)
    (userTable : List UserRow) (session : Option SessionUser)
    (authHeader : Option String) (now : Nat) (minimumRole : Role) : GuardResult :=
  match session with
  | some su =>
    let userRole := su.role.getD .user
    let u : ResolvedUser :=
      { id := su.id, name := su.name, email := su.email, image := su.image,
        role := userRole }
    if minimumRole ≠ .guest ∧ ROLE_LEVEL userRole < ROLE_LEVEL minimumRole then
      { sessionPresent := true, user := some u,
        error := some (.insufficientPermissions minimumRole userRole) }
    else
      { sessionPresent := true, user := some u, error := none }
  | none =>
    match resolveApiKey sha256 keys userTable authHeader now with
    | some au =>
      if minimumRole ≠ .guest ∧ ROLE_LEVEL au.role < ROLE_LEVEL minimumRole then
        { sessionPresent := false, user := some au,
          error := some (.insufficientPermissions minimumRole au.role) }
      else
        { sessionPresent := false, user := some au, error := none }
    | none =>
      if minimumRole = .guest then
        { sessionPresent := false, user := none, error := none }
      else
        { sessionPresent := false, user := none, error := some .authenticationRequired }

/-- The creation response of POST /api/admin/api-keys: the only place the
raw key is returned. -/
structure ApiKeyCreateResponse where
  id : String
  key : String
  prefixText : String
  name : String
deriving DecidableEq

/-- Result of the POST /api/admin/api-keys handler after the admin guard. -/
inductive PostApiKeysResult where
  | badRequest
  | notFound
  | created (stored : ApiKeyRow) (resp : ApiKeyCreateResponse)
deriving DecidableEq

/-- POST from web/app/api/admin/api-keys/route.ts, after the admin role
guard.  The 16 random bytes rendered as hex are the randomHex parameter;
the raw key is gk_ followed by them, only its SHA-256 digest and its
first 11 characters are stored, and the raw key itself goes only into
the creation response. -/
def postApiKeys (sha256 : String → String) (userTable : List UserRow)
    (name : Option String) (userId : Option String) (expiresAt : Option Nat)
    (randomHex : String) (newId : String) : PostApiKeysResult :=
  match name, userId with
  | some n, some uid =>
    if (userTable.find? (fun u => u.id == uid)).isSome then
      let raw := ("gk_") ++ randomHex
      let hash := sha256 raw
      let pfx := raw.take 11
      .created
        { id := newId, key := hash, prefixText := pfx, name := n, userId := uid,
          expiresAt := expiresAt, revoked := false }
        { id := newId, key := raw, prefixText := pfx, name := n }
    else .notFound
  | _, _ => .badRequest

/-- One row of the GET /api/admin/api-keys listing: the selected columns
include the display prefix but not the key column. -/
structure ListedApiKey where
  id : String
  prefixText : String
  name : String
  userId : String
  userName : Option String
  createdAt : Nat
  lastUsedAt : Option Nat
  expiresAt : Option Nat
  revoked : Bool
deriving DecidableEq

/-- GET from web/app/api/admin/api-keys/route.ts, after the admin role
guard: selects id, prefix, name, userId, the joined user name, createdAt,
lastUsedAt, expiresAt and revoked — never the key column. -/
def listApiKeys (keys : List ApiKeyRow) (userTable : List UserRow) : List ListedApiKey :=
  keys.map (fun k =>
    { id := k.id, prefixText := k.prefixText, name := k.name, userId := k.userId,
      userName := (userTable.find? (fun u => u.id == k.userId)).bind (fun u => u.name),
      createdAt := k.createdAt, lastUsedAt := k.lastUsedAt,
      expiresAt := k.expiresAt, revoked := k.revoked })

/-- Hex digit test for the characters of a generated API key. -/
def isHexChar (c : Char) : Bool :=
  (("0123456789abcdef").toList).contains c

/-! ## Helper lemmas -/

/-- Nothing leaves the rejected status. -/
theorem statusStep_rejected (t : Status) : statusStep .rejected t = false := by
  cases t <;> rfl

/-- Nothing leaves the applied status. -/
theorem statusStep_applied (t : Status) : statusStep .applied t = false := by
  cases t <;> rfl

/-- Nothing leaves the failed status. -/
theorem statusStep_failed (t : Status) : statusStep .failed t = false := by
  cases t <;> rfl

/-- A path out of rejected is empty. -/
theorem rejected_path_nil (r : List Status) :
    isPath (Status.rejected :: r) = true → r = [] := by
  intro h
  cases r with
  | nil => rfl
  | cons c cs =>
    rw [isPath, statusStep_rejected] at h
    simp at h

/-- Any legal lifecycle that starts pending and ends applied or failed
passes through approved. -/
theorem pending_path_through_approved (p : List Status) :
    isPath (Status.pending :: p) = true →
    (lastStatus .pending p = .applied ∨ lastStatus .pending p = .failed) →
    Status.approved ∈ p := by
  intro hpath hlast
  cases p with
  | nil => simp [lastStatus] at hlast
  | cons b r =>
    rw [isPath, Bool.and_eq_true] at hpath
    cases b with
    | pending => simp [statusStep] at hpath
    | applied => simp [statusStep] at hpath
    | failed => simp [statusStep] at hpath
    | approved => exact List.mem_cons_self _ _
    | rejected =>
      have hr : r = [] := rejected_path_nil r hpath.2
      subst hr
      simp [lastStatus] at hlast

/-- find? by id commutes with mapping an id-preserving function over the
table. -/
theorem find?_map_id_preserving (f : Proposal → Proposal)
    (hf : ∀ p, (f p).id = p.id) (db : List Proposal) (pid : Nat) :
    (db.map f).find? (fun p => p.id == pid) =
      (db.find? (fun p => p.id == pid)).map f := by
  induction db with
  | nil => rfl
  | cons a rest ih =>
    by_cases ha : a.id == pid
    · simp [List.find?_cons, hf a, ha]
    · simp [List.find?_cons, hf a, ha, ih]

/-! ## Claim theorems -/

/-- C1: proposal status only ever moves forward along
pending-to-approved, pending-to-rejected, approved-to-applied and
approved-to-failed; rejected, applied and failed are terminal; and no
lifecycle reaches applied or failed without passing through approved. -/
theorem c1_status_machine :
    (∀ a b : Status, statusStep a b = true ↔
       ((a = .pending ∧ b = .approved) ∨ (a = .pending ∧ b = .rejected) ∨
        (a = .approved ∧ b = .applied) ∨ (a = .approved ∧ b = .failed))) ∧
    (∀ t : Status, statusStep .rejected t = false ∧ statusStep .applied t = false ∧
       statusStep .failed t = false) ∧
    (∀ p : List Status, isPath (Status.pending :: p) = true →
       (lastStatus .pending p = .applied ∨ lastStatus .pending p = .failed) →
       Status.approved ∈ p) := by
  refine ⟨?_, ?_, pending_path_through_approved⟩
  · intro a b
    cases a <;> cases b <;> simp [statusStep]
  · intro t
    exact ⟨statusStep_rejected t, statusStep_applied t, statusStep_failed t⟩

/-- Witness for C1 at the concrete lifecycle pending, approved, applied. -/
theorem c1_status_machine_witness :
    Status.approved ∈ [Status.approved, Status.applied] :=
  c1_status_machine.2.2 [Status.approved, Status.applied] (by decide) (by decide)

/-- C2: reviewProposal fails with NotFound exactly when the proposal id
is unknown, fails with InvalidState exactly when the status is not
pending, and the conditional update is guarded by the prior status, so a
second review of the same proposal against the updated table gets
InvalidState. -/
theorem c2_reviewProposal_guard (db : List Proposal) (pid r1 : Nat) (d1 : Decision)
    (c1 : String) :
    (reviewProposal db pid r1 d1 c1 = .error .NotFound ↔
       db.find? (fun p => p.id == pid) = none) ∧
    (reviewProposal db pid r1 d1 c1 = .error .InvalidState ↔
       ∃ p, db.find? (fun p => p.id == pid) = some p ∧ p.status ≠ .pending) ∧
    (∀ db2 r2 d2 c2, reviewProposal db pid r1 d1 c1 = .ok db2 →
       reviewProposal db2 pid r2 d2 c2 = .error .InvalidState) := by
  rcases hf : db.find? (fun p => p.id == pid) with _ | p
  · refine ⟨by simp [reviewProposal, hf], by simp [reviewProposal, hf], ?_⟩
    intro db2 r2 d2 c2 hok
    simp [reviewProposal, hf] at hok
  · have hpid : (p.id == pid) = true :=
      @List.find?_some Proposal (fun q => q.id == pid) p db hf
    by_cases hp : p.status = .pending
    · refine ⟨by simp [reviewProposal, hf, hp], ?_, ?_⟩
      · constructor
        · intro h
          simp [reviewProposal, hf, hp] at h
        · rintro ⟨q, hq, hqs⟩
          rw [hf] at hq
          cases hq
          exact absurd hp hqs
      · intro db2 r2 d2 c2 hok
        simp only [reviewProposal, hf, if_pos hp] at hok
        cases hok
        have hpres : ∀ q : Proposal,
            ((fun q : Proposal =>
              if q.id == pid then
                { q with
                  status := match d1 with
                    | .approve => Status.approved
                    | .reject => Status.rejected,
                  reviewerId := some r1,
                  reviewComment := some c1 }
              else q) q).id = q.id := by
          intro q
          by_cases hq : q.id == pid <;> simp [hq]
        have hpid2 : p.id = pid := by simpa using hpid
        rw [reviewProposal.eq_def, find?_map_id_preserving _ hpres, hf]
        cases d1 <;> simp [hpid, hpid2]
    · refine ⟨by simp [reviewProposal, hf, hp], ?_, ?_⟩
      · constructor
        · intro _
          exact ⟨p, hf, hp⟩
        · intro _
          simp [reviewProposal, hf, hp]
      · intro db2 r2 d2 c2 hok
        simp [reviewProposal, hf, hp] at hok

/-- Witness for C2: reviewing the one pending proposal succeeds and a
second review of the updated table is rejected with InvalidState. -/
theorem c2_reviewProposal_guard_witness :
    reviewProposal
      [{ id := 1, type := PType.edit_node, status := Status.approved,
         reviewerId := some 7, reviewComment := some ("ok") }]
      1 8 Decision.reject ("late") = Except.error CoreError.InvalidState :=
  (c2_reviewProposal_guard
      [{ id := 1, type := PType.edit_node, status := Status.pending }]
      1 7 Decision.approve ("ok")).2.2
    [{ id := 1, type := PType.edit_node, status := Status.approved,
       reviewerId := some 7, reviewComment := some ("ok") }]
    8 Decision.reject ("late") (by rfl)

/-- What the update set of an edit holds at a key: the dataAfter value
when it differs from dataBefore, nothing otherwise (keys of dataAfter
assumed distinct). -/
theorem find?_editDiff (before after : Props) (k : String)
    (hnd : (after.map Prod.fst).Nodup) :
    (editDiff before after).find? (fun kv => kv.1 == k) =
      match List.lookup k after with
      | some v => if List.lookup k before = some v then none else some (k, v)
      | none => none := by
  induction after with
  | nil => rfl
  | cons a rest ih =>
    obtain ⟨ak, av⟩ := a
    have hhead : ak ∉ rest.map Prod.fst := (List.nodup_cons.mp hnd).1
    have hnd2 : (rest.map Prod.fst).Nodup := (List.nodup_cons.mp hnd).2
    by_cases hak : ak = k
    · subst hak
      by_cases hb : List.lookup ak before = some av
      · have hfilter : editDiff before ((ak, av) :: rest) = editDiff before rest := by
          simp [editDiff, List.filter_cons, hb]
        have hnone : (editDiff before rest).find? (fun kv => kv.1 == ak) = none := by
          rw [List.find?_eq_none]
          intro x hx
          have hxr : x ∈ rest := List.mem_of_mem_filter hx
          have hmem : x.1 ∈ rest.map Prod.fst := List.mem_map_of_mem Prod.fst hxr
          simp only [beq_iff_eq]
          intro hxa
          exact hhead (hxa ▸ hmem)
        rw [hfilter, hnone]
        simp [List.lookup_cons, hb]
      · have hfilter : editDiff before ((ak, av) :: rest) = (ak, av) :: editDiff before rest := by
          simp [editDiff, List.filter_cons, hb]
        rw [hfilter, List.find?_cons]
        simp [List.lookup_cons, hb]
    · have hb2 : (k == ak) = false := beq_eq_false_iff_ne.mpr (fun he => hak he.symm)
      have hfilter2 : (editDiff before ((ak, av) :: rest)).find? (fun kv => kv.1 == k) =
          (editDiff before rest).find? (fun kv => kv.1 == k) := by
        by_cases hb : List.lookup ak before = some av
        · simp [editDiff, List.filter_cons, hb]
        · simp [editDiff, List.filter_cons, hb, List.find?_cons, hak]
      rw [hfilter2, ih hnd2]
      simp [List.lookup_cons, hb2]

/-- C3: applying an approved edit proposal updates exactly the keys
present in dataAfter whose value differs from dataBefore; every other
property of the target entity survives unchanged. -/
theorem c3_edit_frame (entity : String → Option PropValue) (before after : Props)
    (k : String) (hnd : (after.map Prod.fst).Nodup) :
    (∀ v, List.lookup k after = some v → List.lookup k before ≠ some v →
       applyEdit entity (editDiff before after) k = some v) ∧
    (List.lookup k after = none →
       applyEdit entity (editDiff before after) k = entity k) ∧
    (∀ v, List.lookup k after = some v → List.lookup k before = some v →
       applyEdit entity (editDiff before after) k = entity k) := by
  refine ⟨?_, ?_, ?_⟩
  · intro v hv hbv
    simp [applyEdit, find?_editDiff before after k hnd, hv, hbv]
  · intro hv
    simp [applyEdit, find?_editDiff before after k hnd, hv]
  · intro v hv hbv
    simp [applyEdit, find?_editDiff before after k hnd, hv, hbv]

/-- Witness for C3 on a two-property entity: the differing key is
rewritten, the untouched key keeps its stored value. -/
theorem c3_edit_frame_witness :
    applyEdit
      (fun s => if s = ("keep") then some (PropValue.str ("v")) else none)
      (editDiff [(("role"), PropValue.str ("employee"))]
                [(("role"), PropValue.str ("manager"))])
      ("keep") = some (PropValue.str ("v")) :=
  (c3_edit_frame
      (fun s => if s = ("keep") then some (PropValue.str ("v")) else none)
      [(("role"), PropValue.str ("employee"))]
      [(("role"), PropValue.str ("manager"))]
      ("keep") (by decide)).2.1 (by decide)

/-- C4: when the remote graph-store call for an approved proposal fails,
the executor sets the terminal status failed, stores the error message,
writes exactly one proposal_failed audit entry, and leaves the graph
store unchanged — a failed apply is recorded, never dropped. -/
theorem c4_failed_apply_recorded (st : CoreState) (pid : Nat) (actor : Option Nat)
    (msg : String) (aid : Nat) (p : Proposal)
    (hfind : st.proposals.find? (fun q => q.id == pid) = some p)
    (happr : p.status = Status.approved) :
    (executeApproved st pid actor (.failure msg) aid).proposals.find?
        (fun q => q.id == pid) =
      some { p with status := Status.failed, errorMessage := some msg } ∧
    (executeApproved st pid actor (.failure msg) aid).audit =
      st.audit ++
        [{ id := aid, action := AuditAction.proposal_failed, proposalId := some pid,
           userId := actor, targetNodeId := p.targetNodeId,
           targetEdgeId := p.targetEdgeId, dataBefore := p.dataBefore,
           dataAfter := p.dataAfter, cypherExecuted := some p.command }] ∧
    (executeApproved st pid actor (.failure msg) aid).audit.countP
        (fun e => e.action == AuditAction.proposal_failed) =
      st.audit.countP (fun e => e.action == AuditAction.proposal_failed) + 1 ∧
    (∀ t, statusStep Status.failed t = false) ∧
    (executeApproved st pid actor (.failure msg) aid).graph = st.graph := by
  have hpid : (p.id == pid) = true :=
    @List.find?_some Proposal (fun q => q.id == pid) p st.proposals hfind
  have hexec : executeApproved st pid actor (.failure msg) aid =
      { proposals := st.proposals.map (fun q =>
          if q.id == pid then { q with status := Status.failed, errorMessage := some msg } else q),
        audit := st.audit ++
          [{ id := aid, action := AuditAction.proposal_failed, proposalId := some pid,
             userId := actor, targetNodeId := p.targetNodeId,
             targetEdgeId := p.targetEdgeId, dataBefore := p.dataBefore,
             dataAfter := p.dataAfter, cypherExecuted := some p.command }],
        graph := st.graph } := by
    rw [executeApproved.eq_def, hfind]
    rfl
  refine ⟨?_, ?_, ?_, statusStep_failed, ?_⟩
  · rw [hexec]
    have hpres : ∀ q : Proposal,
        ((fun q : Proposal =>
          if q.id == pid then { q with status := Status.failed, errorMessage := some msg }
          else q) q).id = q.id := by
      intro q
      by_cases hq : q.id == pid <;> simp [hq]
    have hpid2 : p.id = pid := by simpa using hpid
    simp only [find?_map_id_preserving _ hpres, hfind, Option.map_some]
    simp [hpid2]
  · rw [hexec]
  · rw [hexec, List.countP_append]
    simp [List.countP_cons]
  · rw [hexec]

/-- Witness for C4 on a one-proposal state with an empty ledger. -/
theorem c4_failed_apply_recorded_witness :
    (executeApproved
        { proposals := [{ id := 4, type := PType.delete_node, status := Status.approved,
                          targetNodeId := some ("n9") }],
          audit := [], graph := fun _ => none }
        4 (some 2) (.failure ("timeout")) 10).proposals.find? (fun q => q.id == 4) =
      some { id := 4, type := PType.delete_node, status := Status.failed,
             targetNodeId := some ("n9"), errorMessage := some ("timeout") } :=
  (c4_failed_apply_recorded
      { proposals := [{ id := 4, type := PType.delete_node, status := Status.approved,
                        targetNodeId := some ("n9") }],
        audit := [], graph := fun _ => none }
      4 (some 2) ("timeout") 10
      { id := 4, type := PType.delete_node, status := Status.approved,
        targetNodeId := some ("n9") }
      (by rfl) (by rfl)).1

/-- Any list splits into the part before a range, the range, and the part
after it. -/
theorem take_range_drop {α : Type} (l : List α) (lo n : Nat) :
    l = l.take lo ++ ((l.drop lo).take n ++ l.drop (lo + n)) := by
  have h3 : (l.drop lo).drop n = l.drop (lo + n) := List.drop_drop n lo l
  calc l = l.take lo ++ l.drop lo := (List.take_append_drop lo l).symm
    _ = l.take lo ++ ((l.drop lo).take n ++ (l.drop lo).drop n) := by
        rw [List.take_append_drop n (l.drop lo)]
    _ = l.take lo ++ ((l.drop lo).take n ++ l.drop (lo + n)) := by rw [h3]

/-- C5: a successful squash of the n contiguous entries starting at lo
adds exactly one squash summary whose squashedCount is n, links every
entry of the range to the summary id, deletes nothing, and afterwards the
number of entries linked to the summary equals its stored squashedCount. -/
theorem c5_squash_compactor (ledger : List AuditEntry) (lo n newId : Nat) (txt : String)
    (hlen : lo + n ≤ ledger.length)
    (hclean : ∀ e ∈ (ledger.drop lo).take n, e.squashedIntoId = none)
    (hfresh : ∀ e ∈ ledger, e.squashedIntoId ≠ some newId) :
    ∃ out, squashRange ledger lo n newId txt = .ok out ∧
      out.length = ledger.length + 1 ∧
      out.countP (fun e => e.action == AuditAction.squash) =
        ledger.countP (fun e => e.action == AuditAction.squash) + 1 ∧
      ({ id := newId, action := AuditAction.squash, squashSummary := some txt,
         squashedCount := some n } : AuditEntry) ∈ out ∧
      (∀ e ∈ (ledger.drop lo).take n, { e with squashedIntoId := some newId } ∈ out) ∧
      (∀ e ∈ ledger, e ∉ (ledger.drop lo).take n → e ∈ out) ∧
      out.countP (fun e => e.squashedIntoId == some newId) = n := by
  have hrlen : ((ledger.drop lo).take n).length = n := by
    rw [List.length_take, List.length_drop]
    omega
  have hany : ((ledger.drop lo).take n).any (fun e => e.squashedIntoId.isSome) = false := by
    rw [List.any_eq_false]
    intro e he
    simp [hclean e he]
  refine ⟨ledger.take lo
      ++ ((ledger.drop lo).take n).map (fun e => { e with squashedIntoId := some newId })
      ++ ledger.drop (lo + n)
      ++ [{ id := newId, action := AuditAction.squash, squashSummary := some txt,
            squashedCount := some n }], ?_, ?_, ?_, ?_, ?_, ?_, ?_⟩
  · rw [squashRange]
    simp only [hany, Bool.false_eq_true, if_false, hrlen]
  · simp only [List.length_append, List.length_map, List.length_take, List.length_drop,
      List.length_singleton, hrlen]
    omega
  · have hdecomp := take_range_drop ledger lo n
    conv_rhs => rw [hdecomp]
    simp only [List.countP_append, List.countP_map]
    have hmarkact : List.countP
        ((fun e => e.action == AuditAction.squash) ∘
          (fun e => { e with squashedIntoId := some newId })) ((ledger.drop lo).take n) =
        List.countP (fun e => e.action == AuditAction.squash) ((ledger.drop lo).take n) := by
      apply List.countP_congr
      intro e _
      rfl
    rw [hmarkact]
    simp [List.countP_cons]
    omega
  · simp
  · intro e he
    simp only [List.mem_append]
    exact Or.inl (Or.inl (Or.inr (List.mem_map_of_mem _ he)))
  · intro e he hnr
    have hdecomp := take_range_drop ledger lo n
    rw [hdecomp] at he
    simp only [List.mem_append] at he ⊢
    rcases he with h1 | h2 | h3
    · exact Or.inl (Or.inl (Or.inl h1))
    · exact absurd h2 hnr
    · exact Or.inl (Or.inr h3)
  · simp only [List.countP_append, List.countP_map]
    have h1 : List.countP (fun e => e.squashedIntoId == some newId) (ledger.take lo) = 0 := by
      rw [List.countP_eq_zero]
      intro e he
      have : e ∈ ledger := List.take_subset lo ledger he
      simp [hfresh e this]
    have h2 : List.countP
        ((fun e => e.squashedIntoId == some newId) ∘
          (fun e => { e with squashedIntoId := some newId })) ((ledger.drop lo).take n) =
        ((ledger.drop lo).take n).length := by
      rw [List.countP_eq_length]
      intro e _
      simp
    have h3 : List.countP (fun e => e.squashedIntoId == some newId)
        (ledger.drop (lo + n)) = 0 := by
      rw [List.countP_eq_zero]
      intro e he
      have : e ∈ ledger := List.drop_subset (lo + n) ledger he
      simp [hfresh e this]
    have h4 : List.countP (fun e => e.squashedIntoId == some newId)
        [({ id := newId, action := AuditAction.squash, squashSummary := some txt,
            squashedCount := some n } : AuditEntry)] = 0 := by
      simp [List.countP_cons]
    rw [h1, h2, h3, h4, hrlen]
    omega

/-- Witness for C5: squashing the two middle entries of a three-entry
ledger. -/
theorem c5_squash_compactor_witness :
    ∃ out, squashRange
        ([{ id := 1, action := AuditAction.proposal_created },
          { id := 2, action := AuditAction.proposal_approved },
          { id := 3, action := AuditAction.proposal_applied }] : List AuditEntry)
        1 2 9 ("sq") = .ok out ∧
      out.length = ([{ id := 1, action := AuditAction.proposal_created },
          { id := 2, action := AuditAction.proposal_approved },
          { id := 3, action := AuditAction.proposal_applied }] : List AuditEntry).length + 1 ∧
      out.countP (fun e => e.action == AuditAction.squash) =
        List.countP (fun e => e.action == AuditAction.squash)
          ([{ id := 1, action := AuditAction.proposal_created },
            { id := 2, action := AuditAction.proposal_approved },
            { id := 3, action := AuditAction.proposal_applied }] : List AuditEntry) + 1 ∧
      ({ id := 9, action := AuditAction.squash, squashSummary := some ("sq"),
         squashedCount := some 2 } : AuditEntry) ∈ out ∧
      (∀ e ∈ List.take 2 (List.drop 1
          ([{ id := 1, action := AuditAction.proposal_created },
            { id := 2, action := AuditAction.proposal_approved },
            { id := 3, action := AuditAction.proposal_applied }] : List AuditEntry)),
        { e with squashedIntoId := some 9 } ∈ out) ∧
      (∀ e ∈ ([{ id := 1, action := AuditAction.proposal_created },
               { id := 2, action := AuditAction.proposal_approved },
               { id := 3, action := AuditAction.proposal_applied }] : List AuditEntry),
        e ∉ List.take 2 (List.drop 1
          ([{ id := 1, action := AuditAction.proposal_created },
            { id := 2, action := AuditAction.proposal_approved },
            { id := 3, action := AuditAction.proposal_applied }] : List AuditEntry)) →
          e ∈ out) ∧
      out.countP (fun e => e.squashedIntoId == some 9) = 2 :=
  c5_squash_compactor
    ([{ id := 1, action := AuditAction.proposal_created },
      { id := 2, action := AuditAction.proposal_approved },
      { id := 3, action := AuditAction.proposal_applied }] : List AuditEntry)
    1 2 9 ("sq") (by decide) (by decide) (by decide)

/-- Sorting by key is insensitive to the input order of a duplicate-free
property map: two permuted maps sort to the same list. -/
theorem sortProps_eq_of_perm (ps1 ps2 : Props) (h : List.Perm ps1 ps2)
    (hnd : (ps1.map Prod.fst).Nodup) : sortProps ps1 = sortProps ps2 := by
  have hnd2 : (ps2.map Prod.fst).Nodup := ((h.map Prod.fst).nodup_iff).mp hnd
  have hp1 : List.Perm (sortProps ps1) ps1 := List.perm_insertionSort keyLE ps1
  have hp2 : List.Perm (sortProps ps2) ps2 := List.perm_insertionSort keyLE ps2
  have hperm : List.Perm (sortProps ps1) (sortProps ps2) :=
    hp1.trans (h.trans hp2.symm)
  have hs1 : List.Sorted keyLE (sortProps ps1) := List.sorted_insertionSort keyLE ps1
  have hs2 : List.Sorted keyLE (sortProps ps2) := List.sorted_insertionSort keyLE ps2
  have hnds1 : ((sortProps ps1).map Prod.fst).Nodup := ((hp1.map Prod.fst).nodup_iff).mpr hnd
  have hnds2 : ((sortProps ps2).map Prod.fst).Nodup := ((hp2.map Prod.fst).nodup_iff).mpr hnd2
  have hne1 : List.Pairwise (fun a b : String × PropValue => a.1 ≠ b.1) (sortProps ps1) :=
    List.pairwise_map.mp hnds1
  have hne2 : List.Pairwise (fun a b : String × PropValue => a.1 ≠ b.1) (sortProps ps2) :=
    List.pairwise_map.mp hnds2
  have hst1 : List.Sorted keyLT (sortProps ps1) :=
    (hs1.and hne1).imp (fun hab => lt_of_le_of_ne hab.1 hab.2)
  have hst2 : List.Sorted keyLT (sortProps ps2) :=
    (hs2.and hne2).imp (fun hab => lt_of_le_of_ne hab.1 hab.2)
  exact List.eq_of_perm_of_sorted hperm hst1 hst2

/-- C6: mutation command text is a deterministic function of the
proposal's type, target and property map — keys are serialized in sorted
order, so permuting the property map (insertion order) leaves the command
text byte-identical. -/
theorem c6_command_deterministic (t : PType) (target : String) (ps1 ps2 : Props)
    (h : List.Perm ps1 ps2) (hnd : (ps1.map Prod.fst).Nodup) :
    buildCommand t target ps1 = buildCommand t target ps2 ∧
    List.Sorted (fun a b : String => a ≤ b) ((sortProps ps1).map Prod.fst) := by
  have hsort : sortProps ps1 = sortProps ps2 := sortProps_eq_of_perm ps1 ps2 h hnd
  have hser : serializeProps ps1 = serializeProps ps2 := by
    rw [serializeProps, serializeProps, hsort]
  constructor
  · cases t <;> simp [buildCommand, hser]
  · have hs1 : List.Sorted keyLE (sortProps ps1) := List.sorted_insertionSort keyLE ps1
    exact List.Pairwise.map Prod.fst (fun a b hab => hab) hs1

/-- Witness for C6: the same two properties in either order produce the
same edit-node command, and the serialized keys are sorted. -/
theorem c6_command_deterministic_witness :
    buildCommand PType.edit_node ("alice")
        [(("role"), PropValue.str ("manager")), (("age"), PropValue.num 41)] =
      buildCommand PType.edit_node ("alice")
        [(("age"), PropValue.num 41), (("role"), PropValue.str ("manager"))] ∧
    List.Sorted (fun a b : String => a ≤ b)
      ((sortProps [(("role"), PropValue.str ("manager")),
                   (("age"), PropValue.num 41)]).map Prod.fst) :=
  c6_command_deterministic PType.edit_node ("alice")
    [(("role"), PropValue.str ("manager")), (("age"), PropValue.num 41)]
    [(("age"), PropValue.num 41), (("role"), PropValue.str ("manager"))]
    (List.Perm.swap _ _ _) (by decide)

/-- C7: createProposal snapshots the target's current graph-store
properties as dataBefore (null for add-* types), inserts exactly one row
with status pending, leaves every existing row in place, and returns the
new proposal's id. -/
theorem c7_createProposal_snapshot (graph : String → Option Props) (db : List Proposal)
    (type : PType) (targetId : String) (dataAfter : Props) (reason : String)
    (authorId newId : Nat) :
    (createProposal graph db type targetId dataAfter reason authorId newId).2 = newId ∧
    (createProposal graph db type targetId dataAfter reason authorId newId).1.length =
      db.length + 1 ∧
    (∀ q ∈ db, q ∈ (createProposal graph db type targetId dataAfter reason authorId newId).1) ∧
    (∃ p, (createProposal graph db type targetId dataAfter reason authorId newId).1 =
        db ++ [p] ∧
      p.id = newId ∧ p.status = Status.pending ∧ p.dataAfter = some dataAfter ∧
      p.authorId = some authorId ∧ p.reviewerId = none ∧
      p.dataBefore = (if type.isAdd then none else graph targetId)) := by
  refine ⟨rfl, by simp [createProposal], ?_, ?_⟩
  · intro q hq
    simp only [createProposal, List.mem_append]
    exact Or.inl hq
  · exact ⟨_, rfl, rfl, rfl, rfl, rfl, rfl, rfl⟩

/-- Witness for C7: creating an edit-node proposal against a one-node
graph store captures that node's properties as dataBefore. -/
theorem c7_createProposal_snapshot_witness :
    (∀ q ∈ ([] : List Proposal),
      q ∈ (createProposal
        (fun k => if k = ("alice") then some [(("role"), PropValue.str ("employee"))] else none)
        [] PType.edit_node ("alice") [(("role"), PropValue.str ("manager"))]
        ("promotion") 3 7).1) ∧
    (∃ p, (createProposal
        (fun k => if k = ("alice") then some [(("role"), PropValue.str ("employee"))] else none)
        [] PType.edit_node ("alice") [(("role"), PropValue.str ("manager"))]
        ("promotion") 3 7).1 = [] ++ [p] ∧
      p.id = 7 ∧ p.status = Status.pending ∧
      p.dataAfter = some [(("role"), PropValue.str ("manager"))] ∧
      p.authorId = some 3 ∧ p.reviewerId = none ∧
      p.dataBefore = (if PType.edit_node.isAdd then none else
        (fun k => if k = ("alice") then some [(("role"), PropValue.str ("employee"))] else none)
          ("alice"))) :=
  ⟨(c7_createProposal_snapshot
      (fun k => if k = ("alice") then some [(("role"), PropValue.str ("employee"))] else none)
      [] PType.edit_node ("alice") [(("role"), PropValue.str ("manager"))]
      ("promotion") 3 7).2.2.1,
   (c7_createProposal_snapshot
      (fun k => if k = ("alice") then some [(("role"), PropValue.str ("employee"))] else none)
      [] PType.edit_node ("alice") [(("role"), PropValue.str ("manager"))]
      ("promotion") 3 7).2.2.2⟩

/-- C8: requireRole re-validates the resolved actor's role on every call:
an authenticated actor (session or API key) passes with no error exactly
when the minimum role is guest or the actor's level reaches the minimum's
level in the order guest < user < mod < admin, an insufficient role gets
the 403 error, and an unauthenticated caller gets the 401 error whenever
the minimum is above guest. -/
theorem c8_role_guard (sha256 : String → String) (keys : List ApiKeyRow)
    (userTable : List UserRow) (session : Option SessionUser)
    (authHeader : Option String) (now : Nat) (m : Role) :
    (∀ su, session = some su →
      ((requireRole sha256 keys userTable session authHeader now m).error = none ↔
        (m = Role.guest ∨
         ROLE_LEVEL m ≤ ROLE_LEVEL (su.role.getD Role.user))) ∧
      (∀ e, (requireRole sha256 keys userTable session authHeader now m).error = some e →
        e.statusCode = 403) ∧
      (requireRole sha256 keys userTable session authHeader now m).user.isSome) ∧
    (session = none →
      ∀ au, resolveApiKey sha256 keys userTable authHeader now = some au →
      ((requireRole sha256 keys userTable session authHeader now m).error = none ↔
        (m = Role.guest ∨ ROLE_LEVEL m ≤ ROLE_LEVEL au.role)) ∧
      (∀ e, (requireRole sha256 keys userTable session authHeader now m).error = some e →
        e.statusCode = 403) ∧
      (requireRole sha256 keys userTable session authHeader now m).user = some au) ∧
    (session = none →
      resolveApiKey sha256 keys userTable authHeader now = none →
      (m = Role.guest →
        requireRole sha256 keys userTable session authHeader now m =
          { sessionPresent := false, user := none, error := none }) ∧
      (m ≠ Role.guest →
        (requireRole sha256 keys userTable session authHeader now m).error =
          some GuardError.authenticationRequired ∧
        (GuardError.authenticationRequired).statusCode = 401)) := by
  refine ⟨?_, ?_, ?_⟩
  · rintro su rfl
    by_cases hc : m ≠ Role.guest ∧
        ROLE_LEVEL (su.role.getD Role.user) < ROLE_LEVEL m
    · refine ⟨?_, ?_, ?_⟩
      · simp only [requireRole, if_pos hc]
        constructor
        · intro h
          simp at h
        · intro h
          rcases h with h | h
          · exact absurd h hc.1
          · exact absurd hc.2 (not_lt_of_le h)
      · intro e he
        simp only [requireRole, if_pos hc] at he
        cases he
        rfl
      · simp [requireRole, if_pos hc]
    · refine ⟨?_, ?_, ?_⟩
      · simp only [requireRole, if_neg hc]
        constructor
        · intro _
          by_cases hm : m = Role.guest
          · exact Or.inl hm
          · refine Or.inr ?_
            rcases not_and_or.mp hc with h | h
            · exact absurd (not_not.mp h) hm
            · exact le_of_not_lt h
        · intro _
          trivial
      · intro e he
        simp only [requireRole, if_neg hc] at he
        cases he
      · simp [requireRole, if_neg hc]
  · rintro rfl au hau
    by_cases hc : m ≠ Role.guest ∧ ROLE_LEVEL au.role < ROLE_LEVEL m
    · refine ⟨?_, ?_, ?_⟩
      · simp only [requireRole, hau, if_pos hc]
        constructor
        · intro h
          simp at h
        · intro h
          rcases h with h | h
          · exact absurd h hc.1
          · exact absurd hc.2 (not_lt_of_le h)
      · intro e he
        simp only [requireRole, hau, if_pos hc] at he
        cases he
        rfl
      · simp [requireRole, hau, if_pos hc]
    · refine ⟨?_, ?_, ?_⟩
      · simp only [requireRole, hau, if_neg hc]
        constructor
        · intro _
          by_cases hm : m = Role.guest
          · exact Or.inl hm
          · refine Or.inr ?_
            rcases not_and_or.mp hc with h | h
            · exact absurd (not_not.mp h) hm
            · exact le_of_not_lt h
        · intro _
          trivial
      · intro e he
        simp only [requireRole, hau, if_neg hc] at he
        cases he
      · simp [requireRole, hau, if_neg hc]
  · rintro rfl hnone
    refine ⟨?_, ?_⟩
    · intro hm
      simp [requireRole, hnone, hm]
    · intro hm
      refine ⟨?_, rfl⟩
      simp [requireRole, hnone, hm]

/-- Witness for C8: with no session and no API key, requiring the user
role yields the 401 authentication-required error. -/
theorem c8_role_guard_witness :
    (requireRole (fun s => s) [] [] none none 0 Role.user).error =
      some GuardError.authenticationRequired ∧
    (GuardError.authenticationRequired).statusCode = 401 :=
  ((c8_role_guard (fun s => s) [] [] none none 0 Role.user).2.2 rfl (by rfl)).2
    (by decide)

/-- C9: an API key that is revoked, expired, or whose SHA-256 hash
matches no stored row never authenticates — resolveApiKey returns null
and requireRole answers 401 for any minimum role above guest when the
request carries no session. -/
theorem c9_revoked_expired_key (sha256 : String → String) (keys : List ApiKeyRow)
    (userTable : List UserRow) (h : String) (now : Nat) (m : Role)
    (hbad : ∀ r ∈ apiKeyJoin keys userTable, r.1.key = sha256 (h.drop 7) →
      r.1.revoked = true ∨ ∃ e, r.1.expiresAt = some e ∧ e < now) :
    resolveApiKey sha256 keys userTable (some h) now = none ∧
    (m ≠ Role.guest →
      (requireRole sha256 keys userTable none (some h) now m).error =
        some GuardError.authenticationRequired ∧
      (GuardError.authenticationRequired).statusCode = 401) := by
  have hres : resolveApiKey sha256 keys userTable (some h) now = none := by
    rw [resolveApiKey.eq_def]
    by_cases hpre : h.startsWith ("Bearer gk_")
    · simp only [hpre, if_true]
      rcases hfind : (apiKeyJoin keys userTable).find?
          (fun r => r.1.key == sha256 (h.drop 7)) with _ | ku
      · rw [hfind]
      · rw [hfind]
        have hmem : ku ∈ apiKeyJoin keys userTable := List.mem_of_find?_eq_some hfind
        have hkey : (ku.1.key == sha256 (h.drop 7)) = true :=
          @List.find?_some (ApiKeyRow × UserRow)
            (fun r => r.1.key == sha256 (h.drop 7)) ku
            (apiKeyJoin keys userTable) hfind
        have hkey2 : ku.1.key = sha256 (h.drop 7) := by simpa using hkey
        rcases hbad ku hmem hkey2 with hrev | ⟨e, hexp, hlt⟩
        · simp [hrev]
        · simp only [hexp]
          by_cases hr : ku.1.revoked <;> simp [hr, hlt]
    · simp [hpre]
  refine ⟨hres, ?_⟩
  intro hm
  refine ⟨?_, rfl⟩
  simp [requireRole, hres, hm]

/-- Witness for C9: a revoked key row matching the presented hash does
not authenticate, and the request is answered with 401. -/
theorem c9_revoked_expired_key_witness :
    resolveApiKey (fun s => s)
        [{ id := ("k1"), key := ("gk_abc"), prefixText := ("gk_abc"), name := ("ci"),
           userId := ("u1"), revoked := true }]
        [{ id := ("u1"), role := Role.admin }]
        (some ("Bearer gk_abc")) 0 = none ∧
    (Role.mod ≠ Role.guest →
      (requireRole (fun s => s)
          [{ id := ("k1"), key := ("gk_abc"), prefixText := ("gk_abc"), name := ("ci"),
             userId := ("u1"), revoked := true }]
          [{ id := ("u1"), role := Role.admin }]
          none (some ("Bearer gk_abc")) 0 Role.mod).error =
        some GuardError.authenticationRequired ∧
      (GuardError.authenticationRequired).statusCode = 401) :=
  c9_revoked_expired_key (fun s => s)
    [{ id := ("k1"), key := ("gk_abc"), prefixText := ("gk_abc"), name := ("ci"),
       userId := ("u1"), revoked := true }]
    [{ id := ("u1"), role := Role.admin }]
    ("Bearer gk_abc") 0 Role.mod (by decide)

/-- C10: creating an API key stores only the SHA-256 digest of the raw
key (gk_ followed by the 32 random hex characters) plus a display prefix
equal to the raw key's first 11 characters; the raw key itself appears
only in the creation response, the stored row depends on the raw key
only through digest and prefix, and the listing endpoint surfaces the
prefix but is independent of the stored hash column. -/
theorem c10_raw_key_never_stored (sha256 : String → String) (userTable : List UserRow)
    (n uid : String) (expiresAt : Option Nat) (hex newId : String)
    (stored : ApiKeyRow) (resp : ApiKeyCreateResponse)
    (hlen : hex.length = 32)
    (hpost : postApiKeys sha256 userTable (some n) (some uid) expiresAt hex newId =
      .created stored resp) :
    stored =
      ({ id := newId, key := sha256 (("gk_") ++ hex),
         prefixText := (("gk_") ++ hex).take 11, name := n, userId := uid,
         expiresAt := expiresAt, revoked := false } : ApiKeyRow) ∧
    resp =
      ({ id := newId, key := ("gk_") ++ hex,
         prefixText := (("gk_") ++ hex).take 11, name := n } : ApiKeyCreateResponse) ∧
    (("gk_") ++ hex).length = 35 ∧
    (∀ hex2 stored2 resp2,
      postApiKeys sha256 userTable (some n) (some uid) expiresAt hex2 newId =
        .created stored2 resp2 →
      sha256 (("gk_") ++ hex2) = sha256 (("gk_") ++ hex) →
      (("gk_") ++ hex2).take 11 = (("gk_") ++ hex).take 11 →
      stored2 = stored) ∧
    (∀ ks : List ApiKeyRow,
      listApiKeys (ks.map (fun k => { k with key := ("") })) userTable =
        listApiKeys ks userTable) ∧
    (∀ ks : List ApiKeyRow,
      (listApiKeys ks userTable).map (fun r => r.prefixText) =
        ks.map (fun k => k.prefixText)) := by
  by_cases hu : (userTable.find? (fun u => u.id == uid)).isSome
  · rw [postApiKeys, if_pos hu] at hpost
    have hst : stored =
        ({ id := newId, key := sha256 (("gk_") ++ hex),
           prefixText := (("gk_") ++ hex).take 11, name := n, userId := uid,
           expiresAt := expiresAt, revoked := false } : ApiKeyRow) := by
      cases hpost
      rfl
    have hrs : resp =
        ({ id := newId, key := ("gk_") ++ hex,
           prefixText := (("gk_") ++ hex).take 11, name := n } : ApiKeyCreateResponse) := by
      cases hpost
      rfl
    refine ⟨hst, hrs, ?_, ?_, ?_, ?_⟩
    · rw [String.length_append, hlen]
      decide
    · intro hex2 stored2 resp2 hpost2 hhash hpfx
      rw [postApiKeys, if_pos hu] at hpost2
      have hst2 : stored2 =
          ({ id := newId, key := sha256 (("gk_") ++ hex2),
             prefixText := (("gk_") ++ hex2).take 11, name := n, userId := uid,
             expiresAt := expiresAt, revoked := false } : ApiKeyRow) := by
        cases hpost2
        rfl
      rw [hst2, hst, hhash, hpfx]
    · intro ks
      simp only [listApiKeys, List.map_map]
      rfl
    · intro ks
      simp only [listApiKeys, List.map_map]
      rfl
  · rw [postApiKeys, if_neg hu] at hpost
    cases hpost

/-- Witness for C10 with a concrete 32-hex-character random part: the
raw key returned at creation has length 35 and the stored row holds only
its digest and 11-character display prefix. -/
theorem c10_raw_key_never_stored_witness :
    (("gk_") ++ ("0123456789abcdef0123456789abcdef")).length = 35 :=
  (c10_raw_key_never_stored (fun _ => ("digest"))
    [{ id := ("u1") }] ("ci") ("u1") none ("0123456789abcdef0123456789abcdef") ("id1")
    { id := ("id1"), key := ("digest"),
      prefixText := (("gk_") ++ ("0123456789abcdef0123456789abcdef")).take 11,
      name := ("ci"), userId := ("u1") }
    { id := ("id1"), key := ("gk_") ++ ("0123456789abcdef0123456789abcdef"),
      prefixText := (("gk_") ++ ("0123456789abcdef0123456789abcdef")).take 11,
      name := ("ci") }
    (by decide) (by rfl)).2.2.1

end Graphoni
